import Mathlib

/-!
Verification of the diagnostic_updater header
(src/diagnostic_updater/include/diagnostic_updater/diagnostic_updater.hpp).

The embedding models DiagnosticStatusWrapper as a record of name, level,
message and key/value fields; diagnostic tasks as functions on that record;
CompositeDiagnosticTask::run, DiagnosticTaskVector::DiagnosticTaskInternal::run,
DiagnosticTaskVector::removeByName, DiagnosticTaskVector::addInternal and
Updater::setPeriod / Updater::force_update as Lean functions translated from
the source. Bodies that live outside the header (DiagnosticStatusWrapper
methods, Updater::update, Updater::reset_timer, Updater::addedTaskCallback)
are modelled from the spec and marked as such in their doc comments.
-/

namespace DiagnosticUpdater

/-- Severity levels of diagnostic_msgs/DiagnosticStatus, as naturals:
OK = 0, WARN = 1, ERROR = 2, STALE = 3. -/
def levelOK : Nat := 0

def levelWARN : Nat := 1

def levelERROR : Nat := 2

def levelSTALE : Nat := 3

/-- diagnostic_updater::DiagnosticStatusWrapper: a DiagnosticStatus message
(name, level, message) together with its ordered key/value fields. -/
structure DiagnosticStatusWrapper where
  name : String
  level : Nat
  message : String
  values : List (String × String)
deriving Repr, DecidableEq

/-- The default-constructed DiagnosticStatusWrapper: every string empty,
level zero (OK), no values, per the ROS message default initialization. -/
instance : Inhabited DiagnosticStatusWrapper :=
  ⟨⟨"", 0, "", []⟩⟩

namespace DiagnosticStatusWrapper

/-- Modelled from the spec: DiagnosticStatusWrapper::summary(src) lives in
diagnostic_status_wrapper.hpp, which is not under src/. Per spec section 4.2
it copies the level and message of src into this wrapper, leaving name and
fields alone. -/
def summary (stat src : DiagnosticStatusWrapper) : DiagnosticStatusWrapper :=
  { stat with level := src.level, message := src.message }

/-- Modelled from the spec: DiagnosticStatusWrapper::mergeSummary(src) lives
in diagnostic_status_wrapper.hpp, which is not under src/. Per spec section
4.2 step 3c the accumulator level becomes max(accumulator level, child
level), and the accumulator message is the concatenation of the non-OK child
messages seen so far, in child order, separated by the fixed delimiter. -/
def mergeSummary (acc src : DiagnosticStatusWrapper) : DiagnosticStatusWrapper :=
  { acc with
    level := max acc.level src.level,
    message :=
      if src.level = levelOK then acc.message
      else if acc.message = "" then src.message
      else acc.message ++ "; " ++ src.message }

end DiagnosticStatusWrapper

/-- A diagnostic task body: mutation of a DiagnosticStatusWrapper, embedded
as a function from the wrapper to the updated wrapper. -/
abbrev TaskFunction := DiagnosticStatusWrapper → DiagnosticStatusWrapper

namespace CompositeDiagnosticTask

/-- The loop of CompositeDiagnosticTask::run over the child list: carries the
working report stat and the accumulator combined_summary, and also returns
the list of reports each child was invoked on (the report right after
stat.summary(original_summary)), for stating what each child observes. -/
def runAux (tasks : List TaskFunction) (original : DiagnosticStatusWrapper)
    (stat combined : DiagnosticStatusWrapper) :
    DiagnosticStatusWrapper × DiagnosticStatusWrapper × List DiagnosticStatusWrapper :=
  match tasks with
  | [] => (stat, combined, [])
  | t :: ts =>
    let stat1 := stat.summary original
    let stat2 := t stat1
    let r := runAux ts original stat2 (combined.mergeSummary stat2)
    (r.1, r.2.1, stat1 :: r.2.2)

/-- CompositeDiagnosticTask::run (header lines 168-188): save the incoming
summary, run each child on the working report reset to that summary, merge
each child summary into combined_summary, and finally write
combined_summary back into the report. -/
def run (tasks : List TaskFunction) (stat : DiagnosticStatusWrapper) :
    DiagnosticStatusWrapper :=
  let original_summary := DiagnosticStatusWrapper.summary default stat
  let r := runAux tasks original_summary stat default
  DiagnosticStatusWrapper.summary r.1 r.2.1

/-- The report each child of the composite is invoked on, in child order. -/
def observations (tasks : List TaskFunction) (stat : DiagnosticStatusWrapper) :
    List DiagnosticStatusWrapper :=
  (runAux tasks (DiagnosticStatusWrapper.summary default stat) stat default).2.2

end CompositeDiagnosticTask

/-- A child task of the concrete shape the composite-merge claims quantify
over: it sets a definite level and message and appends a fixed list of
fields to the report it is given. -/
structure SimpleTask where
  level : Nat
  message : String
  fields : List (String × String)

/-- Running a SimpleTask on a report: set level and message, append the
fields, leave the name alone. -/
def SimpleTask.run (t : SimpleTask) (stat : DiagnosticStatusWrapper) :
    DiagnosticStatusWrapper :=
  { stat with
    level := t.level,
    message := t.message,
    values := stat.values ++ t.fields }

/-- Maximum of the children levels, starting from the OK (zero) level of the
default-constructed accumulator. -/
def maxLevel (cs : List SimpleTask) : Nat :=
  cs.foldl (fun a c => max a c.level) levelOK

/-- Concatenation of the non-OK children messages in child order, separated
by the fixed delimiter, starting from the empty accumulator message. -/
def joinNonOK (cs : List SimpleTask) : String :=
  cs.foldl
    (fun m c =>
      if c.level = levelOK then m
      else if m = "" then c.message else m ++ "; " ++ c.message) ""

namespace DiagnosticTaskVector

/-- DiagnosticTaskVector::DiagnosticTaskInternal (header lines 217-234): the
registered name together with the bound task function. -/
structure DiagnosticTaskInternal where
  name : String
  fn : TaskFunction

/-- DiagnosticTaskInternal::run (header lines 223-227): set the report name
to the registered name, then invoke the stored task function on the report. -/
def DiagnosticTaskInternal.run (t : DiagnosticTaskInternal)
    (stat : DiagnosticStatusWrapper) : DiagnosticStatusWrapper :=
  t.fn { stat with name := t.name }

/-- DiagnosticTaskVector::removeByName (header lines 308-322): walk the task
vector in registration order; erase the first entry whose name equals the
argument and return true; return false leaving the vector unchanged when no
entry matches. -/
def removeByName (tasks : List DiagnosticTaskInternal) (name : String) :
    Bool × List DiagnosticTaskInternal :=
  match tasks with
  | [] => (false, [])
  | e :: es =>
    if e.name = name then (true, es)
    else
      let r := removeByName es name
      (r.1, e :: r.2)

/-- The spec's description of removal, for comparison with the source
translation: locate the first index whose entry name matches; remove exactly
that entry (preserving the order of the rest) and report true, or report
false and leave the list untouched when there is none. -/
def removeFirstSpec (tasks : List DiagnosticTaskInternal) (name : String) :
    Bool × List DiagnosticTaskInternal :=
  match tasks.findIdx? (fun e => e.name = name) with
  | some i => (true, tasks.take i ++ tasks.drop (i + 1))
  | none => (false, tasks)

/-- DiagnosticTaskVector::addInternal (header lines 337-342), generic in the
subclass hook state: under the registry lock, push the new entry onto the
back of the task vector, then invoke the overridable addedTaskCallback hook
with that entry; the hook runs after the push, so it is passed the task
vector as it stands at call time (already holding the new entry). -/
def addInternal {σ : Type}
    (hook : DiagnosticTaskInternal → List DiagnosticTaskInternal → σ → σ)
    (tasks : List DiagnosticTaskInternal) (s : σ) (task : DiagnosticTaskInternal) :
    List DiagnosticTaskInternal × σ :=
  let tasks1 := tasks ++ [task]
  (tasks1, hook task tasks1 s)

end DiagnosticTaskVector

open DiagnosticTaskVector

/-- The scheduler state of diagnostic_updater::Updater (header lines
356-484): the inherited task vector, the update period and the next due
time of the periodic timer (durations and timestamps as integer
nanoseconds), the hardware id string and the no-hardware-id warning latch. -/
structure UpdaterState where
  tasks : List DiagnosticTaskInternal
  period : Int
  next_due : Int
  hwid : String
  warn_nohwid_done : Bool

namespace Updater

/-- Modelled from the spec: the synthetic WARN-level no-hardware-id report
appended by Updater::update, whose body lives in diagnostic_updater.cpp and
is not under src/. -/
def noHardwareIdReport : DiagnosticStatusWrapper :=
  ⟨"updater", levelWARN, "diagnostic_updater: No HW_ID was set.", []⟩

/-- Modelled from the spec: Updater::update is declared at header line 443
but its body lives in diagnostic_updater.cpp, not under src/. Per spec
section 4.3, a dispatch pass runs every registered entry on a fresh report
(the entry forces the name and invokes its callback), appends the synthetic
WARN no-hardware-id report when the hardware id is empty and the latch is
unset (setting the latch), and hands the batch to the sink; the periodic
schedule is the timer's and is not touched here. -/
def update (st : UpdaterState) :
    UpdaterState × List DiagnosticStatusWrapper :=
  let reports := st.tasks.map (fun t => t.run default)
  if st.hwid = "" ∧ st.warn_nohwid_done = false then
    ({ st with warn_nohwid_done := true }, reports ++ [noHardwareIdReport])
  else
    (st, reports)

/-- Updater::force_update (header lines 415-418): simply calls update. -/
def force_update (st : UpdaterState) :
    UpdaterState × List DiagnosticStatusWrapper :=
  update st

/-- Modelled from the spec: Updater::reset_timer is declared at header line
437 but its body lives in diagnostic_updater.cpp, not under src/. Per spec
section 4.3 it recomputes the next due time as now plus the stored period. -/
def reset_timer (st : UpdaterState) (now : Int) : UpdaterState :=
  { st with next_due := now + st.period }

/-- Updater::setPeriod (header lines 398-402): store the new period, then
reset the timer from the current clock reading. -/
def setPeriod (st : UpdaterState) (now : Int) (period : Int) : UpdaterState :=
  reset_timer { st with period := period } now

/-- Modelled from the spec: the placeholder report published when a task is
added (Updater::addedTaskCallback, declared at header line 471, body in
diagnostic_updater.cpp, not under src/): level OK with a node-starting-up
message, named after the new entry. -/
def placeholderReport (name : String) : DiagnosticStatusWrapper :=
  ⟨name, levelOK, "Node starting up", []⟩

/-- Modelled from the spec: Updater::addedTaskCallback publishes a
single-entry batch holding the placeholder report for the new entry and
leaves the scheduler state (in particular the periodic schedule) alone. The
hook state pairs the scheduler state with the list of batches published so
far. -/
def addedTaskCallback (task : DiagnosticTaskInternal)
    (_currentTasks : List DiagnosticTaskInternal)
    (s : UpdaterState × List (List DiagnosticStatusWrapper)) :
    UpdaterState × List (List DiagnosticStatusWrapper) :=
  (s.1, s.2 ++ [[placeholderReport task.name]])

/-- DiagnosticTaskVector::add(name, f) (header lines 257-261) as inherited
by the Updater: build the internal entry and hand it to addInternal, whose
hook is the Updater's addedTaskCallback; returns the new scheduler state
and the batches the hook published. -/
def add (st : UpdaterState) (name : String) (f : TaskFunction) :
    UpdaterState × List (List DiagnosticStatusWrapper) :=
  let r := DiagnosticTaskVector.addInternal addedTaskCallback st.tasks (st, []) ⟨name, f⟩
  ({ r.2.1 with tasks := r.1 }, r.2.2)

/-- A run of n successive dispatch passes: the final state and the batches
handed to the sink, earliest first. -/
def runPasses (st : UpdaterState) : Nat → UpdaterState × List (List DiagnosticStatusWrapper)
  | 0 => (st, [])
  | n + 1 =>
    let r := update st
    let rest := runPasses r.1 n
    (rest.1, r.2 :: rest.2)

/-- How many passes of a run emitted the synthetic no-hardware-id warning:
each registered entry contributes exactly one report per pass, so a pass
emitted the warning exactly when its batch is one report longer than the
task list. -/
def warnPassCount (st : UpdaterState) (n : Nat) : Nat :=
  ((runPasses st n).2.filter (fun b => b.length = st.tasks.length + 1)).length

end Updater

open CompositeDiagnosticTask

open Updater

theorem runAux_name (cs : List SimpleTask) (orig stat comb : DiagnosticStatusWrapper) :
    (runAux (cs.map SimpleTask.run) orig stat comb).1.name = stat.name := by
  induction cs generalizing stat comb with
  | nil => rfl
  | cons c cs ih =>
    simp only [List.map_cons, runAux]
    rw [ih]
    rfl

theorem runAux_values (cs : List SimpleTask) (orig stat comb : DiagnosticStatusWrapper) :
    (runAux (cs.map SimpleTask.run) orig stat comb).1.values
      = stat.values ++ cs.flatMap (fun c => c.fields) := by
  induction cs generalizing stat comb with
  | nil => simp [runAux]
  | cons c cs ih =>
    simp only [List.map_cons, runAux]
    rw [ih]
    simp [SimpleTask.run, DiagnosticStatusWrapper.summary, List.append_assoc]

theorem runAux_comb_level (cs : List SimpleTask) (orig stat comb : DiagnosticStatusWrapper) :
    (runAux (cs.map SimpleTask.run) orig stat comb).2.1.level
      = cs.foldl (fun a c => max a c.level) comb.level := by
  induction cs generalizing stat comb with
  | nil => rfl
  | cons c cs ih =>
    simp only [List.map_cons, runAux, List.foldl_cons]
    rw [ih]
    rfl

theorem runAux_comb_message (cs : List SimpleTask) (orig stat comb : DiagnosticStatusWrapper) :
    (runAux (cs.map SimpleTask.run) orig stat comb).2.1.message
      = cs.foldl
          (fun m c =>
            if c.level = levelOK then m
            else if m = "" then c.message else m ++ "; " ++ c.message)
          comb.message := by
  induction cs generalizing stat comb with
  | nil => rfl
  | cons c cs ih =>
    simp only [List.map_cons, runAux, List.foldl_cons]
    rw [ih]
    rfl

/-- Claim C1: running a composite over children (in registration order) that
each set a level and message and append fields yields a report whose level is
the maximum of the children levels, whose message is the concatenation of
the non-OK children messages in child order separated by the fixed
delimiter, and whose fields are the incoming fields followed by every field
appended by any child, in the order appended. -/
theorem composite_merge_spec (cs : List SimpleTask) (stat : DiagnosticStatusWrapper) :
    (CompositeDiagnosticTask.run (cs.map SimpleTask.run) stat).level = maxLevel cs
    ∧ (CompositeDiagnosticTask.run (cs.map SimpleTask.run) stat).message = joinNonOK cs
    ∧ (CompositeDiagnosticTask.run (cs.map SimpleTask.run) stat).values
        = stat.values ++ cs.flatMap (fun c => c.fields) := by
  unfold CompositeDiagnosticTask.run
  refine ⟨?_, ?_, ?_⟩
  · simp [DiagnosticStatusWrapper.summary, runAux_comb_level, maxLevel, levelOK]
    rfl
  · simp [DiagnosticStatusWrapper.summary, runAux_comb_message, joinNonOK]
    rfl
  · simp [DiagnosticStatusWrapper.summary, runAux_values]

theorem runAux_obs_get (cs : List SimpleTask) (orig stat comb : DiagnosticStatusWrapper)
    (i : Nat) (h : i < (runAux (cs.map SimpleTask.run) orig stat comb).2.2.length) :
    (runAux (cs.map SimpleTask.run) orig stat comb).2.2.get ⟨i, h⟩
      = { stat with
          level := orig.level,
          message := orig.message,
          values := stat.values ++ (cs.take i).flatMap (fun c => c.fields) } := by
  induction cs generalizing stat comb i with
  | nil => simp [runAux] at h
  | cons c cs ih =>
    match i with
    | 0 =>
      simp only [List.map_cons, runAux, List.get]
      simp [DiagnosticStatusWrapper.summary]
    | i + 1 =>
      simp only [List.map_cons, runAux, List.get] at h ⊢
      rw [ih]
      simp [SimpleTask.run, DiagnosticStatusWrapper.summary, List.append_assoc]

/-- Claim C4: during a composite run over children that set level and
message and append fields, the i-th child is invoked on a report whose level
and message are those the composite was originally passed (no child sees a
previous child level or message), whose name is the incoming name, and whose
fields are the incoming fields followed by exactly the fields appended by the
earlier children, in order. -/
theorem composite_child_observation (cs : List SimpleTask)
    (stat : DiagnosticStatusWrapper) (i : Nat)
    (h : i < (observations (cs.map SimpleTask.run) stat).length) :
    (observations (cs.map SimpleTask.run) stat).get ⟨i, h⟩
      = { stat with values := stat.values ++ (cs.take i).flatMap (fun c => c.fields) } := by
  unfold observations at h ⊢
  rw [runAux_obs_get]
  rfl

/-- Witness for composite_child_observation: the second of two concrete
children observes the original WARN summary with the first child's field
appended. -/
theorem composite_child_observation_witness :
    (observations
        (List.map SimpleTask.run
          [⟨levelOK, "fine", [("k1", "v1")]⟩, ⟨levelERROR, "overheat", [("k2", "v2")]⟩])
        ⟨"top", levelWARN, "warn in", [("k0", "v0")]⟩).get ⟨1, by decide⟩
      = ⟨"top", levelWARN, "warn in", [("k0", "v0"), ("k1", "v1")]⟩ := by
  rw [composite_child_observation
    [⟨levelOK, "fine", [("k1", "v1")]⟩, ⟨levelERROR, "overheat", [("k2", "v2")]⟩]
    ⟨"top", levelWARN, "warn in", [("k0", "v0")]⟩ 1 (by decide)]
  decide

/-- Claim C10: running a composite with zero children overwrites the report
level and message with the default accumulator values (level OK, empty
message), whatever they were on entry, and leaves name and fields unchanged. -/
theorem composite_empty_run (stat : DiagnosticStatusWrapper) :
    CompositeDiagnosticTask.run [] stat
      = { stat with level := levelOK, message := "" } := by
  rfl

/-- Claim C2 counterexample: the claim says the report name is overwritten
with the registered name after the callback runs, so a task-set name never
appears; but run sets the name before invoking the callback, so a callback
that sets the name wins. Concretely, an entry registered as "registered"
whose callback sets the name to "internal" produces a report named
"internal". -/
theorem dispatch_name_counterexample :
    ¬ (DiagnosticTaskInternal.run
          ⟨"registered", fun s => { s with name := "internal" }⟩
          default).name = "registered" := by
  decide

/-- Claim C2 (amended): DiagnosticTaskInternal::run sets the report name to
the entry's registered name before invoking the callback; hence for any
callback that does not itself modify the name field, the resulting report
carries the registered name (a task that sets its own name, however, does
appear in the report). -/
theorem dispatch_name_forced (t : DiagnosticTaskInternal)
    (stat : DiagnosticStatusWrapper)
    (h : ∀ s, (t.fn s).name = s.name) :
    (t.run stat).name = t.name := by
  unfold DiagnosticTaskInternal.run
  rw [h]

/-- Witness for dispatch_name_forced: an entry registered as "mytask" whose
callback only sets a WARN summary yields a report named "mytask". -/
theorem dispatch_name_forced_witness :
    (DiagnosticTaskInternal.run
        ⟨"mytask", fun s => { s with level := levelWARN, message := "low" }⟩
        default).name = "mytask" := by
  exact dispatch_name_forced
    ⟨"mytask", fun s => { s with level := levelWARN, message := "low" }⟩
    default (fun s => rfl)

/-- Claim C3: for any registry contents (duplicate names permitted),
removeByName removes exactly the first entry in registration order whose
name matches and returns true, returns false removing nothing when no entry
matches, and preserves the relative order of the remaining entries: it
coincides with the first-match removal described by the spec. -/
theorem removeByName_first_match (tasks : List DiagnosticTaskInternal) (name : String) :
    removeByName tasks name = removeFirstSpec tasks name := by
  induction tasks with
  | nil => rfl
  | cons e es ih =>
    simp only [removeByName]
    rw [ih]
    by_cases h : e.name = name
    · simp [removeFirstSpec, h]
    · have hb : ¬ (decide (e.name = name) = true) := by simpa using h
      simp only [removeFirstSpec, List.findIdx?_cons, if_neg hb, if_neg h,
        List.findIdx?_succ]
      cases h' : es.findIdx? (fun x => decide (x.name = name)) with
      | none => simp [h']
      | some i => simp [h', List.take_succ_cons, List.drop_succ_cons]

theorem update_tasks (st : UpdaterState) : (Updater.update st).1.tasks = st.tasks := by
  unfold Updater.update
  split <;> rfl

theorem update_latch_stays (st : UpdaterState) (h : st.warn_nohwid_done = true) :
    (Updater.update st).1.warn_nohwid_done = true := by
  unfold Updater.update
  split <;> simp [h]

theorem update_batch_length (st : UpdaterState) :
    (Updater.update st).2.length
      = if st.hwid = "" ∧ st.warn_nohwid_done = false
        then st.tasks.length + 1 else st.tasks.length := by
  unfold Updater.update
  split <;> simp

theorem warnPassCount_succ (st : UpdaterState) (n : Nat) :
    warnPassCount st n.succ
      = (if st.hwid = "" ∧ st.warn_nohwid_done = false then 1 else 0)
        + warnPassCount (Updater.update st).1 n := by
  unfold warnPassCount
  simp only [Updater.runPasses, List.filter_cons]
  by_cases h : st.hwid = "" ∧ st.warn_nohwid_done = false
  · rw [if_pos h]
    have hlen : (Updater.update st).2.length = st.tasks.length + 1 := by
      rw [update_batch_length, if_pos h]
    simp [hlen, update_tasks, Nat.add_comm]
  · rw [if_neg h]
    have hlen : (Updater.update st).2.length = st.tasks.length := by
      rw [update_batch_length, if_neg h]
    simp [hlen, update_tasks]

theorem warnPassCount_latched (st : UpdaterState) (n : Nat)
    (h : st.warn_nohwid_done = true) : warnPassCount st n = 0 := by
  induction n generalizing st with
  | zero => rfl
  | succ n ih =>
    rw [warnPassCount_succ]
    rw [if_neg (by simp [h]), ih _ (update_latch_stays st h)]

/-- Claim C6: over any number of successive dispatch passes, the synthetic
WARN no-hardware-id report is emitted in at most one pass, and once the
warn_nohwid_done latch is set no pass ever emits it. -/
theorem warn_nohwid_at_most_once (st : UpdaterState) (n : Nat) :
    warnPassCount st n ≤ 1
    ∧ (st.warn_nohwid_done = true → warnPassCount st n = 0) := by
  refine ⟨?_, fun h => warnPassCount_latched st n h⟩
  induction n generalizing st with
  | zero => exact Nat.zero_le 1
  | succ n ih =>
    rw [warnPassCount_succ]
    by_cases h : st.hwid = "" ∧ st.warn_nohwid_done = false
    · rw [if_pos h]
      have hlatch : (Updater.update st).1.warn_nohwid_done = true := by
        unfold Updater.update
        rw [if_pos h]
      rw [warnPassCount_latched _ n hlatch]
    · rw [if_neg h, Nat.zero_add]
      exact ih _

/-- Witness for warn_nohwid_at_most_once: with an empty hardware id, a
tasks-free updater emits the warning in at most one of three passes, and
none at all when the latch is already set. -/
theorem warn_nohwid_at_most_once_witness :
    warnPassCount ⟨[], 1, 0, "", false⟩ 3 ≤ 1
    ∧ warnPassCount ⟨[], 1, 0, "", true⟩ 3 = 0 :=
  ⟨(warn_nohwid_at_most_once ⟨[], 1, 0, "", false⟩ 3).1,
   (warn_nohwid_at_most_once ⟨[], 1, 0, "", true⟩ 3).2 rfl⟩

/-- Claim C7: setPeriod called at time t with new period P2 stores P2 and
resets the schedule to next_due = t + P2; the result is independent of the
previously scheduled next_due (reset semantics, not additive). -/
theorem setPeriod_resets_schedule (st : UpdaterState) (t P2 : Int) :
    Updater.setPeriod st t P2 = { st with period := P2, next_due := t + P2 }
    ∧ ∀ d : Int, Updater.setPeriod { st with next_due := d } t P2
        = Updater.setPeriod st t P2 :=
  ⟨rfl, fun _ => rfl⟩

/-- Claim C8: force_update performs a full dispatch pass immediately: its
batch starts with one report per registered entry (the entry run on a fresh
report), its behaviour does not depend on next_due at all, and it leaves
next_due (and the period) unchanged. -/
theorem force_update_immediate (st : UpdaterState) :
    (Updater.force_update st).1.next_due = st.next_due
    ∧ (Updater.force_update st).1.period = st.period
    ∧ (Updater.force_update st).2
        = st.tasks.map (fun t => t.run default)
          ++ (if st.hwid = "" ∧ st.warn_nohwid_done = false
              then [Updater.noHardwareIdReport] else [])
    ∧ ∀ d : Int,
        Updater.force_update { st with next_due := d }
          = ({ (Updater.force_update st).1 with next_due := d },
             (Updater.force_update st).2) := by
  refine ⟨?_, ?_, ?_, ?_⟩
  · unfold Updater.force_update Updater.update
    split <;> rfl
  · unfold Updater.force_update Updater.update
    split <;> rfl
  · unfold Updater.force_update Updater.update
    by_cases h : st.hwid = "" ∧ st.warn_nohwid_done = false
    · simp [h]
    · simp [h]
  · intro d
    unfold Updater.force_update Updater.update
    by_cases h : st.hwid = "" ∧ st.warn_nohwid_done = false
    · simp [h]
    · simp [h]

/-- Claim C5: addInternal first appends the new entry to the task vector
and then invokes the task-added hook exactly once with that entry (the hook
observes the vector already holding the entry), and the Updater's hook
publishes exactly one single-entry placeholder batch for the new entry while
leaving the rest of the scheduler state, in particular period and next_due,
untouched. -/
theorem add_runs_hook_once (tasks : List DiagnosticTaskInternal)
    (trace : List (DiagnosticTaskInternal × List DiagnosticTaskInternal))
    (task : DiagnosticTaskInternal)
    (st : UpdaterState) (name : String) (f : TaskFunction) :
    DiagnosticTaskVector.addInternal (fun e l tr => tr ++ [(e, l)]) tasks trace task
      = (tasks ++ [task], trace ++ [(task, tasks ++ [task])])
    ∧ Updater.add st name f
      = ({ st with tasks := st.tasks ++ [⟨name, f⟩] },
         [[Updater.placeholderReport name]]) :=
  ⟨rfl, rfl⟩

end DiagnosticUpdater
